import Mathlib

/-!
Verification of the campsite-checker repository.

Shallow embedding conventions, used throughout:

* A calendar date is modelled by its proleptic Gregorian ordinal
  (Python's `date.toordinal()`), an integer.  `datetime.timedelta(days=i)`
  arithmetic becomes integer arithmetic on ordinals.  `strftime`/`strptime`
  form a bijection between valid date strings and ordinals, so formatting a
  date and parsing it back is the identity on this representation, and
  equality of formatted date strings is equality of ordinals.
* For the month enumeration of `__get_park_information` the calendar
  structure (year, month, day) matters, so there dates are modelled by a
  `CalDate` triple with Python's lexicographic comparison.
* Python exceptions are modelled with `Option`/`Except`: a function that can
  raise returns `none`/`Except.error` on the raising inputs.
* Mutation of `self` (fields `nights` and `available` of `FindCampsite`)
  is modelled by explicit state passing over `FCState`.
-/

namespace CampFinder

/-! ### Availability Resolver: `FindCampsite.consecutive_nights`

The Python body is

    ordinal_dates = [strptime(dstr).toordinal() for dstr in available]
    c = count()
    longest_consecutive = max((list(g) for _, g in
        groupby(ordinal_dates, lambda x: x - next(c))), key=len)
    return len(longest_consecutive) >= nights

`groupby` with the key `x - next(c)` (counter `c` = 0,1,2,...) groups
adjacent list elements whose keys agree, and the keys of positions `i` and
`i+1` agree iff `x(i+1) = x(i) + 1`.  So the groups are the maximal blocks
of the list, *in the order given*, in which each element is exactly one more
than its predecessor.  `splitRuns` computes exactly those blocks.
`max(..., key=len)` raises `ValueError` on an empty sequence, which happens
iff the input list is empty; hence the `Option` in `consecutive_nights`. -/

/-- Maximal blocks of adjacent elements increasing by exactly 1, in input
order (the groups produced by `groupby` with the counter key). -/
def splitRuns : List Int → List (List Int)
  | [] => []
  | [x] => [[x]]
  | x :: y :: rest =>
    match splitRuns (y :: rest) with
    | [] => [[x]]
    | g :: gs => if y = x + 1 then (x :: g) :: gs else [x] :: g :: gs

/-- Length of the longest group (the `len` of Python's
`max(groups, key=len)`); 0 when there are no groups. -/
def longestLen (l : List Int) : Nat :=
  (splitRuns l).foldl (fun a g => max a g.length) 0

/-- `FindCampsite.consecutive_nights`.  `none` models the `ValueError`
raised by `max` on an empty sequence (empty `available`). -/
def consecutive_nights (available : List Int) (nights : Int) : Option Bool :=
  if available.isEmpty then none
  else some (decide ((longestLen available : Int) ≥ nights))

/-! ### `FindCampsite` object state and `_get_num_available_sites` -/

/-- The mutable fields of a `FindCampsite` object that the core logic
reads and writes: the check-in/check-out ordinals, the stored `nights`
value, and the accumulated `available` site list. -/
structure FCState where
  startOrd : Int
  endOrd : Int
  nights : Int
  available : List String
deriving Repr, DecidableEq

/-- `FindCampsite.__init__` (lines 57–63): `nights = end - start` in days,
`available = []`. -/
def initState (startOrd endOrd : Int) : FCState :=
  { startOrd := startOrd, endOrd := endOrd,
    nights := endOrd - startOrd, available := [] }

/-- The clamp in `_get_num_available_sites`:
`if self.nights not in range(1, num_days + 1): self.nights = num_days`.
Python's `n in range(1, num_days + 1)` on an int is `1 ≤ n ≤ num_days`. -/
def clampNights (nights numDays : Int) : Int :=
  if 1 ≤ nights ∧ nights ≤ numDays then nights else numDays

/-- The window list
`[self.end_date - dt.timedelta(days=i) for i in range(1, num_days + 1)]`,
i.e. `[e-1, e-2, ..., e-numDays]` (empty when `e ≤ s`).  The code then
formats these dates and wraps them in a `set` used only for membership
tests, which on ordinals is just list membership. -/
def windowDates (s e : Int) : List Int :=
  (List.range (e - s).toNat).map (fun i : Nat => e - ((i : Int) + 1))

/-- The qualification test
`if desired_available and self.consecutive_nights(desired_available, self.nights)`:
Python's `and` short-circuits, so `consecutive_nights` is only evaluated on a
non-empty list (where it cannot raise). -/
def siteQualifies (desired : List Int) (nights : Int) : Bool :=
  !desired.isEmpty && (consecutive_nights desired nights).getD false

/-- `FindCampsite._get_num_available_sites` (lines 154–183).  Input: the
park information map (site id, dates the site is free).  Returns the updated
object state (clamped `nights`, extended `available`) and the pair
`(num_available, maximum)` the method returns. -/
def get_num_available_sites (st : FCState) (info : List (String × List Int)) :
    FCState × Nat × Nat :=
  let maximum := info.length
  let numDays := st.endOrd - st.startOrd
  let dates := windowDates st.startOrd st.endOrd
  let nights := clampNights st.nights numDays
  let step := fun (acc : List String × Nat) (site : String × List Int) =>
    let desired := site.2.filter (fun d => decide (d ∈ dates))
    if siteQualifies desired nights then (acc.1 ++ [site.1], acc.2 + 1) else acc
  let res := info.foldl step (st.available, 0)
  ({ st with nights := nights, available := res.1 }, res.2, maximum)

/-! ### Campground Scanner: requests, month merging, `go_camp`

`_send_request` raises `RuntimeError("failedRequest", "ERROR, {code} ...
{text}")` on a non-200 response and otherwise returns the parsed JSON.  A
response is modelled as its status code, its body text, and the value its
JSON parses to; the error value carries the status code and the body, as the
raised message does. -/

/-- An HTTP response: status code, body text, parsed JSON of type `α`. -/
structure Resp (α : Type) where
  status : Nat
  text : String
  json : α
deriving Repr, DecidableEq

/-- The error raised by `_send_request`: status code and response body. -/
def ReqError : Type := Nat × String

/-- `FindCampsite._send_request` (lines 254–263). -/
def send_request {α : Type} (r : Resp α) : Except ReqError α :=
  if r.status ≠ 200 then .error (r.status, r.text) else .ok r.json

/-- One site's data in a month response: its declared type and its
`availabilities` map (date ordinal, status string). -/
structure Campsite where
  campsite_type : String
  availabilities : List (Int × String)
deriving Repr, DecidableEq

/-- The JSON of one month query: the `campsites` object, keyed by site id. -/
structure MonthData where
  campsites : List (String × Campsite)
deriving Repr, DecidableEq

/-- The request loop of `__get_park_information` (lines 124–134): one
request per month, in order, appending each parsed body to `api_data`; the
first non-200 response raises out of the loop. -/
def fetchMonths : List (Resp MonthData) → Except ReqError (List MonthData)
  | [] => .ok []
  | r :: rest => do
    let m ← send_request r
    let ms ← fetchMonths rest
    .ok (m :: ms)

/-- The inner filter of the collapse loop (lines 141–147): keep a date iff
its status is exactly `"Available"` and, when `site_type` is non-empty
(Python truthiness), the site's declared type equals it. -/
def filterAvail (site_type : String) (cs : Campsite) : List Int :=
  cs.availabilities.foldl
    (fun acc p =>
      if p.2 ≠ "Available" then acc
      else if site_type ≠ "" ∧ site_type ≠ cs.campsite_type then acc
      else acc ++ [p.1])
    []

/-- `a = data.setdefault(campsite_id, []); a += available` on the ordered
map `data`, modelled as an association list in insertion order: extend the
existing entry in place, or append a new entry at the end. -/
def addDates (data : List (String × List Int)) (sid : String) (ds : List Int) :
    List (String × List Int) :=
  if data.any (fun e => e.1 = sid) then
    data.map (fun e => if e.1 = sid then (e.1, e.2 ++ ds) else e)
  else data ++ [(sid, ds)]

/-- The body of the collapse loop for one site of one month
(lines 140–150): sites whose filtered date list is empty add no entry. -/
def collapseStep (site_type : String) (d : List (String × List Int))
    (p : String × Campsite) : List (String × List Int) :=
  let available := filterAvail site_type p.2
  if available.isEmpty then d else addDates d p.1 available

/-- One iteration of the outer collapse loop (lines 139–150) over the sites
of one month. -/
def collapseMonth (site_type : String) (data : List (String × List Int))
    (m : MonthData) : List (String × List Int) :=
  m.campsites.foldl (collapseStep site_type) data

/-- The collapse of all fetched months into the per-site availability map
(the value `__get_park_information` returns). -/
def collapse (site_type : String) (ms : List MonthData) :
    List (String × List Int) :=
  ms.foldl (collapseMonth site_type) []

/-- `FindCampsite.__get_park_information` for one park, given the responses
its month queries receive: fetch every month (propagating the first request
failure), then collapse. -/
def get_park_information (site_type : String) (rs : List (Resp MonthData)) :
    Except ReqError (List (String × List Int)) := do
  let ms ← fetchMonths rs
  .ok (collapse site_type ms)

/-- One park as `go_camp` sees it: its id, the responses to its month
queries, and the response to its `_get_site_name` metadata query (whose
JSON is the facility name). -/
structure Park where
  pid : String
  months : List (Resp MonthData)
  nameResp : Resp String
deriving Repr, DecidableEq

/-- One summary line of `go_camp`'s output `out`:
`"{emoji} {name} ({id}): {current} site(s) available out of {maximum} site(s)"`,
with the success emoji iff `current` is non-zero. -/
structure Line where
  success : Bool
  name : String
  parkId : String
  current : Nat
  maximum : Nat
deriving Repr, DecidableEq

/-- `FindCampsite.go_camp` (lines 200–237): one pass over the parks, in
order.  For each park: fetch and collapse its months, fetch its name, count
its available sites (mutating the object state), and append a summary line;
the overall flag is true iff some park had a non-zero count.  Any request
failure propagates, committing nothing. -/
def go_camp (site_type : String) :
    FCState → List Park → Except ReqError (FCState × Bool × List Line)
  | st, [] => .ok (st, false, [])
  | st, p :: rest => do
    let info ← get_park_information site_type p.months
    let name ← send_request p.nameResp
    let res := get_num_available_sites st info
    let r ← go_camp site_type res.1 rest
    .ok (r.1, (decide (res.2.1 ≠ 0) || r.2.1),
         ⟨decide (res.2.1 ≠ 0), name, p.pid, res.2.1, res.2.2⟩ :: r.2.2)

/-! ### Month enumeration of `__get_park_information` (lines 115–121)

    start_of_month = dt.datetime(start.year, start.month, 1)
    months = list(rrule.rrule(rrule.MONTHLY, dtstart=start_of_month,
                              until=self.end_date))

`rrule(MONTHLY, dtstart=d, until=u)` enumerates `d`, `d` plus one month,
`d` plus two months, ..., keeping every occurrence `≤ u` (`until` is
inclusive; dateutil converts a plain `date` bound to the datetime at
midnight, and every occurrence is at midnight, so the comparison is plain
date order).  One availability request is then sent per enumerated month.
Months are indexed by `12 * year + (month - 1)`. -/

/-- A calendar date as Python's `datetime.date`: year, month in 1..12,
day ≥ 1 (upper day bounds are irrelevant to the month enumeration). -/
structure CalDate where
  year : Nat
  month : Nat
  day : Nat
  month_ge : 1 ≤ month
  month_le : month ≤ 12
  day_ge : 1 ≤ day

/-- Python's date comparison: lexicographic on (year, month, day). -/
def dateLeB (a b : CalDate) : Bool :=
  if a.year ≠ b.year then decide (a.year < b.year)
  else if a.month ≠ b.month then decide (a.month < b.month)
  else decide (a.day ≤ b.day)

/-- Month index `12 * year + (month - 1)` of a date. -/
def monthIdx (d : CalDate) : Nat :=
  12 * d.year + d.month - 1

/-- The first of the month with index `mi` (the `dt.datetime(y, m, 1)`
occurrences the recurrence rule steps through). -/
def firstOfMonth (mi : Nat) : CalDate where
  year := mi / 12
  month := mi % 12 + 1
  day := 1
  month_ge := Nat.succ_le_succ (Nat.zero_le _)
  month_le := Nat.succ_le_of_lt (Nat.mod_lt _ (by omega))
  day_ge := Nat.le_refl 1

theorem monthIdx_firstOfMonth (mi : Nat) : monthIdx (firstOfMonth mi) = mi := by
  simp only [monthIdx, firstOfMonth]
  omega

/-- `dateLeB (firstOfMonth cur) endD` decides `cur ≤ monthIdx endD`. -/
theorem dateLeB_firstOfMonth (cur : Nat) (endD : CalDate) :
    dateLeB (firstOfMonth cur) endD = true ↔ cur ≤ monthIdx endD := by
  have hq := Nat.div_add_mod cur 12
  have hr : cur % 12 < 12 := Nat.mod_lt _ (by omega)
  have h1 := endD.month_ge
  have h2 := endD.month_le
  have h3 := endD.day_ge
  simp only [dateLeB, firstOfMonth, monthIdx]
  split
  · rename_i h
    constructor
    · intro hlt
      simp only [decide_eq_true_eq] at hlt
      omega
    · intro hle
      simp only [decide_eq_true_eq]
      omega
  · rename_i h
    split
    · rename_i h'
      constructor
      · intro hlt
        simp only [decide_eq_true_eq] at hlt
        omega
      · intro hle
        simp only [decide_eq_true_eq]
        omega
    · rename_i h'
      constructor
      · intro hle
        simp only [decide_eq_true_eq] at hle
        omega
      · intro hle
        simp only [decide_eq_true_eq]
        omega

/-- The recurrence enumeration: starting from month index `cur`, keep
every first-of-month that is `≤ endD` (as dates), stepping one month at a
time, exactly as the `rrule` occurrence loop does. -/
def collectMonths (cur : Nat) (endD : CalDate) : List Nat :=
  if h : dateLeB (firstOfMonth cur) endD = true then
    cur :: collectMonths (cur + 1) endD
  else []
termination_by monthIdx endD + 1 - cur
decreasing_by
  have := (dateLeB_firstOfMonth cur endD).mp h
  omega

/-- The month-query list issued for one park: one first-of-month per
enumerated month, starting with the month of `start_date`. -/
def parkQueryMonths (startD endD : CalDate) : List CalDate :=
  (collectMonths (monthIdx startD) endD).map firstOfMonth

theorem collectMonths_eq_range' (endD : CalDate) :
    ∀ n cur, monthIdx endD + 1 - cur = n → collectMonths cur endD = List.range' cur n := by
  intro n
  induction n with
  | zero =>
    intro cur h
    rw [collectMonths]
    have : ¬ (dateLeB (firstOfMonth cur) endD = true) := by
      rw [dateLeB_firstOfMonth]
      omega
    simp [this]
  | succ n ih =>
    intro cur h
    rw [collectMonths]
    have : dateLeB (firstOfMonth cur) endD = true := by
      rw [dateLeB_firstOfMonth]
      omega
    simp only [this, dite_true, List.range'_succ]
    rw [ih (cur + 1) (by omega)]

/-! ### Poll Loop: `IneedToCamp.go_camp`

    while not avail:
        fc = FindCampsite(...)
        try:
            avail = fc.go_camp()
        except:
            print('exception: {}'.format(n)); n += 1; time.sleep(5)
        if avail:
            if popup: fc.show_campsite()
        else:
            print('try number: {}'.format(m)); m += 1; time.sleep(7)

Each iteration makes one scan invocation.  An iteration whose scan raises
sleeps 5 seconds in the handler and, since `avail` is still false, another
7 seconds in the `else` branch: a single inter-attempt gap of 12 seconds.
An iteration whose scan returns `any=false` waits 7 seconds.  An iteration
whose scan returns `any=true` ends the loop (state DONE) with no wait.
The loop is driven by the sequence of scan outcomes. -/

/-- Outcome of one scan attempt: available, not available, or raised. -/
inductive ScanOutcome
  | avail
  | notAvail
  | err
deriving Repr, DecidableEq

/-- The inter-attempt delay (seconds) an outcome causes, `none` when the
outcome ends the loop: raised = 5 + 7, not available = 7. -/
def attemptDelay : ScanOutcome → Option Nat
  | .avail => none
  | .notAvail => some 7
  | .err => some (5 + 7)

/-- Run the poll loop against a finite prefix of scan outcomes.  Returns
`some (invocations, delays)` when the loop reaches DONE within the prefix —
the number of scan invocations made and the list of inter-attempt delays —
and `none` when every outcome of the prefix keeps it in POLLING. -/
def pollRun : List ScanOutcome → Option (Nat × List Nat)
  | [] => none
  | o :: rest =>
    match attemptDelay o with
    | none => some (1, [])
    | some d =>
      match pollRun rest with
      | none => none
      | some (k, ds) => some (k + 1, d :: ds)

/-! ### Spec-side definition for the Resolver refinement claim -/

/-- Modelled from the spec's algorithm description (for comparison with the
source's `consecutive_nights`): convert to ordinals, *sort*, partition into
maximal runs of consecutive integers, take the largest run's length. -/
def specLongestRun (l : List Int) : Nat :=
  longestLen (List.insertionSort (· ≤ ·) l)

/-! ### Helper lemmas -/

theorem mem_windowDates (s e d : Int) :
    d ∈ windowDates s e ↔ s ≤ d ∧ d < e := by
  rw [windowDates, List.mem_map]
  constructor
  · rintro ⟨i, hi, hEq⟩
    rw [List.mem_range] at hi
    omega
  · intro hd
    refine ⟨(e - d - 1).toNat, ?_, ?_⟩
    · rw [List.mem_range]
      omega
    · omega

theorem nights_after_get_num_available_sites (st : FCState)
    (info : List (String × List Int)) :
    ((get_num_available_sites st info).1).nights
      = clampNights st.nights (st.endOrd - st.startOrd) := rfl

theorem startOrd_after_get_num_available_sites (st : FCState)
    (info : List (String × List Int)) :
    ((get_num_available_sites st info).1).startOrd = st.startOrd := rfl

theorem endOrd_after_get_num_available_sites (st : FCState)
    (info : List (String × List Int)) :
    ((get_num_available_sites st info).1).endOrd = st.endOrd := rfl

theorem clampNights_mem (n w : Int) (hw : 1 ≤ w) :
    1 ≤ clampNights n w ∧ clampNights n w ≤ w := by
  unfold clampNights
  split <;> omega

theorem clampNights_idem (n w : Int) :
    clampNights (clampNights n w) w = clampNights n w := by
  unfold clampNights
  split_ifs <;> omega

theorem filterAvail_sound (stype : String) (cs : Campsite) :
    ∀ (l : List (Int × String)) (acc : List Int) (d : Int),
      d ∈ l.foldl
        (fun acc p =>
          if p.2 ≠ "Available" then acc
          else if stype ≠ "" ∧ stype ≠ cs.campsite_type then acc
          else acc ++ [p.1]) acc →
      d ∈ acc ∨ ((d, "Available") ∈ l ∧ (stype = "" ∨ stype = cs.campsite_type)) := by
  intro l
  induction l with
  | nil =>
    intro acc d hd
    exact Or.inl hd
  | cons p rest ih =>
    intro acc d hd
    rw [List.foldl_cons] at hd
    rcases ih _ d hd with h | h
    · by_cases h1 : p.2 ≠ "Available"
      · rw [if_pos h1] at h
        exact Or.inl h
      · rw [if_neg h1] at h
        by_cases h2 : stype ≠ "" ∧ stype ≠ cs.campsite_type
        · rw [if_pos h2] at h
          exact Or.inl h
        · rw [if_neg h2] at h
          rcases List.mem_append.mp h with h3 | h3
          · exact Or.inl h3
          · have hd1 : d = p.1 := by simpa using h3
            rw [not_ne_iff] at h1
            rw [not_and_or, not_ne_iff, not_ne_iff] at h2
            refine Or.inr ⟨?_, h2⟩
            have hpair : (d, "Available") = p := by
              rw [hd1, ← h1]
            rw [hpair]
            exact List.mem_cons_self p rest
    · exact Or.inr ⟨List.mem_cons_of_mem _ h.1, h.2⟩

theorem mem_filterAvail (stype : String) (cs : Campsite) (d : Int)
    (hd : d ∈ filterAvail stype cs) :
    (d, "Available") ∈ cs.availabilities ∧ (stype = "" ∨ stype = cs.campsite_type) := by
  rw [filterAvail] at hd
  rcases filterAvail_sound stype cs cs.availabilities [] d hd with h | h
  · simp at h
  · exact h

/-- The invariant maintained while building the collapsed per-site map:
every entry has a non-empty date list, and every recorded date satisfies
`P` for its site. -/
def GoodMap (P : String → Int → Prop) (data : List (String × List Int)) : Prop :=
  ∀ sid ds, (sid, ds) ∈ data → ds ≠ [] ∧ ∀ d ∈ ds, P sid d

theorem GoodMap_addDates {P : String → Int → Prop}
    {data : List (String × List Int)} {sid : String} {ds : List Int}
    (hdata : GoodMap P data) (hne : ds ≠ []) (hP : ∀ d ∈ ds, P sid d) :
    GoodMap P (addDates data sid ds) := by
  intro sid' ds' hmem
  unfold addDates at hmem
  split at hmem
  · rcases List.mem_map.mp hmem with ⟨e, he, hEq⟩
    by_cases hid : e.1 = sid
    · rw [if_pos hid] at hEq
      rw [Prod.mk.injEq] at hEq
      obtain ⟨h1, h2⟩ := hEq
      subst h2
      constructor
      · intro hnil
        exact hne (List.append_eq_nil.mp hnil).2
      · intro d hdmem
        rcases List.mem_append.mp hdmem with h | h
        · rw [← h1]
          exact (hdata e.1 e.2 he).2 d h
        · rw [← h1, hid]
          exact hP d h
    · rw [if_neg hid] at hEq
      exact hdata sid' ds' (hEq ▸ he)
  · rcases List.mem_append.mp hmem with h | h
    · exact hdata _ _ h
    · have heq := List.mem_singleton.mp h
      rw [Prod.mk.injEq] at heq
      obtain ⟨h1, h2⟩ := heq
      subst h1
      subst h2
      exact ⟨hne, hP⟩

theorem GoodMap_collapseStep {P : String → Int → Prop} (stype : String)
    {data : List (String × List Int)} (p : String × Campsite)
    (hdata : GoodMap P data) (hp : ∀ d ∈ filterAvail stype p.2, P p.1 d) :
    GoodMap P (collapseStep stype data p) := by
  unfold collapseStep
  by_cases hem : (filterAvail stype p.2).isEmpty
  · rw [if_pos hem]
    exact hdata
  · rw [if_neg hem]
    refine GoodMap_addDates hdata ?_ hp
    intro hnil
    rw [hnil] at hem
    exact hem rfl

theorem GoodMap_collapseMonth_aux {P : String → Int → Prop} (stype : String) :
    ∀ (l : List (String × Campsite)) (data : List (String × List Int)),
      GoodMap P data →
      (∀ sid c, (sid, c) ∈ l → ∀ d ∈ filterAvail stype c, P sid d) →
      GoodMap P (l.foldl (collapseStep stype) data) := by
  intro l
  induction l with
  | nil =>
    intro data hdata _
    exact hdata
  | cons p rest ih =>
    intro data hdata hl
    rw [List.foldl_cons]
    refine ih _ ?_ ?_
    · exact GoodMap_collapseStep stype p hdata
        (hl p.1 p.2 (List.mem_cons_self p rest))
    · intro sid c hc
      exact hl sid c (List.mem_cons_of_mem _ hc)

/-- The provenance of an entry of the collapsed map: the date appeared,
with status exactly `"Available"`, in some queried month's data for that
site, and the site's declared type passed the filter. -/
def CollapseOrigin (stype : String) (ms : List MonthData)
    (sid : String) (d : Int) : Prop :=
  ∃ m ∈ ms, ∃ c : Campsite, (sid, c) ∈ m.campsites ∧
    (d, "Available") ∈ c.availabilities ∧ (stype = "" ∨ stype = c.campsite_type)

theorem GoodMap_collapse (stype : String) (ms : List MonthData) :
    GoodMap (CollapseOrigin stype ms) (collapse stype ms) := by
  suffices haux : ∀ (l : List MonthData) (data : List (String × List Int)),
      (∀ m ∈ l, m ∈ ms) → GoodMap (CollapseOrigin stype ms) data →
      GoodMap (CollapseOrigin stype ms) (l.foldl (collapseMonth stype) data) by
    refine haux ms [] (fun m hm => hm) ?_
    intro sid ds hmem
    simp at hmem
  intro l
  induction l with
  | nil =>
    intro data _ hdata
    exact hdata
  | cons m rest ih =>
    intro data hsub hdata
    rw [List.foldl_cons]
    refine ih _ (fun m' hm' => hsub m' (List.mem_cons_of_mem _ hm')) ?_
    unfold collapseMonth
    refine GoodMap_collapseMonth_aux stype m.campsites data hdata ?_
    intro sid c hc d hd
    have hsound := mem_filterAvail stype c d hd
    exact ⟨m, hsub m (List.mem_cons_self _ _), c, hc, hsound.1, hsound.2⟩

theorem fetchMonths_find_eq (rs : List (Resp MonthData)) (r : Resp MonthData)
    (h : rs.find? (fun x => decide (x.status ≠ 200)) = some r) :
    fetchMonths rs = .error (r.status, r.text) := by
  induction rs with
  | nil => simp [List.find?] at h
  | cons a rest ih =>
    by_cases ha : a.status ≠ 200
    · rw [List.find?_cons_of_pos _ (by simpa using ha)] at h
      have har : a = r := by
        injection h
      subst har
      have hsend : send_request a = .error (a.status, a.text) := by
        simp [send_request, ha]
      show (send_request a >>= fun m =>
        fetchMonths rest >>= fun ms => Except.ok (m :: ms)) = _
      rw [hsend]
      rfl
    · rw [List.find?_cons_of_neg _ (by simpa using ha)] at h
      have hsend : send_request a = .ok a.json := by
        rw [not_ne_iff] at ha
        simp [send_request, ha]
      show (send_request a >>= fun m =>
        fetchMonths rest >>= fun ms => Except.ok (m :: ms)) = _
      rw [hsend, ih h]
      rfl

theorem fetchMonths_error_of_mem (rs : List (Resp MonthData))
    (hbad : ∃ r ∈ rs, r.status ≠ 200) :
    ∃ e, fetchMonths rs = .error e := by
  obtain ⟨r, hr, hs⟩ := hbad
  have hsome : (rs.find? (fun x => decide (x.status ≠ 200))).isSome = true := by
    rw [List.find?_isSome]
    exact ⟨r, hr, by simpa using hs⟩
  obtain ⟨r', hr'⟩ := Option.isSome_iff_exists.mp hsome
  exact ⟨_, fetchMonths_find_eq rs r' hr'⟩

theorem go_camp_error_of_bad_month (stype : String) :
    ∀ (parks : List Park) (st : FCState) (p : Park), p ∈ parks →
      (∃ r ∈ p.months, r.status ≠ 200) →
      ∃ e, go_camp stype st parks = .error e := by
  intro parks
  induction parks with
  | nil =>
    intro st p hp _
    exact absurd hp (List.not_mem_nil p)
  | cons q rest ih =>
    intro st p hp hbad
    rcases List.mem_cons.mp hp with h | h
    · subst h
      obtain ⟨e, he⟩ := fetchMonths_error_of_mem p.months hbad
      refine ⟨e, ?_⟩
      show (get_park_information stype p.months >>= fun info => _) = _
      unfold get_park_information
      rw [he]
      rfl
    · cases hinfo : get_park_information stype q.months with
      | error e =>
        refine ⟨e, ?_⟩
        show (get_park_information stype q.months >>= fun info => _) = _
        rw [hinfo]
        rfl
      | ok info =>
        cases hname : send_request q.nameResp with
        | error e =>
          refine ⟨e, ?_⟩
          show (get_park_information stype q.months >>= fun info => _) = _
          rw [hinfo]
          show (send_request q.nameResp >>= fun name => _) = _
          rw [hname]
          rfl
        | ok nm =>
          obtain ⟨e, he⟩ := ih (get_num_available_sites st info).1 p h hbad
          refine ⟨e, ?_⟩
          show (get_park_information stype q.months >>= fun info => _) = _
          rw [hinfo]
          show (send_request q.nameResp >>= fun name => _) = _
          rw [hname]
          show (go_camp stype (get_num_available_sites st info).1 rest
            >>= fun r => _) = _
          rw [he]
          rfl

/-! ### Claim C1 -/

/-- C1 counterexample: the claim says the Resolver's result on an unsorted
list equals its result on the sorted list.  It does not: the code never
sorts, and `groupby` only sees adjacencies in input order.  On the two dates
2021-03-07 and 2021-03-06 (ordinals 737856, 737855) in that order with
`nights = 2` the code returns false, while on the sorted order it returns
true. -/
theorem C1_counterexample :
    consecutive_nights [737856, 737855] 2 = some false ∧
    consecutive_nights [737855, 737856] 2 = some true := by
  decide

/-- C1 (amended): `consecutive_nights` does not sort; it measures maximal
`+1`-runs in the order the dates are given.  For every *nonempty, already
ascending-sorted* list of date ordinals and every `requiredNights`, it
returns true iff the longest maximal run of consecutive integers of the
sorted date multiset (the spec's `specLongestRun`) has length
`≥ requiredNights`; on an unsorted list the result can differ from the
sorted list's result. -/
theorem C1_resolver_on_sorted_input (l : List Int) (n : Int) (hne : l ≠ [])
    (hs : l.Sorted (· ≤ ·)) :
    consecutive_nights l n = some (decide ((specLongestRun l : Int) ≥ n)) := by
  rw [specLongestRun, List.Sorted.insertionSort_eq hs, consecutive_nights, if_neg]
  simp [List.isEmpty_iff, hne]

theorem C1_resolver_on_sorted_input_witness :
    consecutive_nights [737855, 737856, 737858] 2
      = some (decide ((specLongestRun [737855, 737856, 737858] : Int) ≥ 2)) :=
  C1_resolver_on_sorted_input [737855, 737856, 737858] 2 (by decide) (by decide)

/-! ### Claim C2 -/

/-- C2 counterexample: the claim says the Resolver returns false on an
empty date set without raising.  In the code, `max(..., key=len)` over the
empty group sequence raises `ValueError`, modelled as `none`. -/
theorem C2_counterexample : consecutive_nights [] 1 = none := rfl

/-- C2 (amended): for every `requiredNights`, calling the Resolver with an
empty list of available dates raises `ValueError` (`none` in the model); the
Scanner never does so, because its guard `desired_available and
consecutive_nights(...)` short-circuits, so an empty date set yields a
non-qualifying site without an error. -/
theorem C2_empty_input (n : Int) :
    consecutive_nights [] n = none ∧ siteQualifies [] n = false :=
  ⟨rfl, rfl⟩

/-! ### Claim C3 -/

/-- C3: the threshold actually compared against the longest run is the
stored `nights` value clamped by
`if self.nights not in range(1, num_days + 1): self.nights = num_days`: a
value that is 0, negative, or greater than the window size `num_days`
becomes `num_days`; a value already in `[1, num_days]` is unchanged.  The
state returned by `_get_num_available_sites` stores exactly this clamp. -/
theorem C3_clamping (n w : Int) :
    (1 ≤ n ∧ n ≤ w → clampNights n w = n) ∧
    ((n < 1 ∨ w < n) → clampNights n w = w) ∧
    (∀ (st : FCState) (info : List (String × List Int)),
      ((get_num_available_sites st info).1).nights
        = clampNights st.nights (st.endOrd - st.startOrd)) := by
  refine ⟨?_, ?_, fun st info => rfl⟩ <;>
    · intro h
      unfold clampNights
      split_ifs <;> omega

theorem C3_clamping_witness :
    clampNights 2 3 = 2 ∧ clampNights 9 3 = 3 ∧ clampNights 0 3 = 3 :=
  ⟨(C3_clamping 2 3).1 (by decide), (C3_clamping 9 3).2.1 (Or.inr (by decide)),
   (C3_clamping 0 3).2.1 (Or.inl (by decide))⟩

/-! ### Claim C4 -/

theorem monthIdx_mono (a b : CalDate) (h : dateLeB a b = true) :
    monthIdx a ≤ monthIdx b := by
  have h2 := a.month_le
  have h3 := b.month_ge
  unfold dateLeB at h
  unfold monthIdx
  split at h
  · simp only [decide_eq_true_eq] at h
    omega
  · rename_i hy
    rw [not_ne_iff] at hy
    split at h
    · simp only [decide_eq_true_eq] at h
      omega
    · rename_i hm
      rw [not_ne_iff] at hm
      omega

/-- C4: for every park and every date range with `start_date ≤ end_date`,
the month enumeration issues exactly `k` availability queries, where
`k = monthIdx end - monthIdx start + 1` is the number of calendar months
the range touches (inclusive of both endpoints): the query list has length
`k`, no duplicates, and contains the first of month `mi` iff `mi` is
between the start month and the end month. -/
theorem C4_month_queries (startD endD : CalDate) (h : dateLeB startD endD = true) :
    (parkQueryMonths startD endD).length = monthIdx endD - monthIdx startD + 1 ∧
    (parkQueryMonths startD endD).Nodup ∧
    (∀ mi : Nat, firstOfMonth mi ∈ parkQueryMonths startD endD ↔
      monthIdx startD ≤ mi ∧ mi ≤ monthIdx endD) := by
  have hmono := monthIdx_mono startD endD h
  have hrange := collectMonths_eq_range' endD
    (monthIdx endD + 1 - monthIdx startD) (monthIdx startD) rfl
  have hinj : Function.Injective firstOfMonth := by
    intro x y hxy
    have hmi := congrArg monthIdx hxy
    rwa [monthIdx_firstOfMonth, monthIdx_firstOfMonth] at hmi
  unfold parkQueryMonths
  rw [hrange]
  refine ⟨?_, ?_, ?_⟩
  · rw [List.length_map, List.length_range']
    omega
  · exact ((List.nodup_range' _ _).map hinj)
  · intro mi
    rw [List.mem_map]
    constructor
    · rintro ⟨a, ha, hEq⟩
      have ha' : a = mi := hinj hEq
      subst ha'
      rw [List.mem_range'_1] at ha
      omega
    · intro hmi
      refine ⟨mi, ?_, rfl⟩
      rw [List.mem_range'_1]
      omega

theorem C4_month_queries_witness :
    (parkQueryMonths ⟨2021, 3, 6, by decide, by decide, by decide⟩
        ⟨2021, 4, 2, by decide, by decide, by decide⟩).length
      = monthIdx ⟨2021, 4, 2, by decide, by decide, by decide⟩
        - monthIdx ⟨2021, 3, 6, by decide, by decide, by decide⟩ + 1 :=
  (C4_month_queries ⟨2021, 3, 6, by decide, by decide, by decide⟩
    ⟨2021, 4, 2, by decide, by decide, by decide⟩ (by decide)).1

/-! ### Claim C5 -/

/-- C5: if the first two scan attempts each return `any=false` or each
raise, and the third returns `any=true`, the poll loop makes exactly 3 scan
invocations with exactly 2 inter-attempt delays and then reaches DONE
(`pollRun` returns `some`); moreover an attempt that raises (or finds
nothing) never by itself terminates the loop: prepending it to any outcome
sequence leaves termination to the rest. -/
theorem C5_poll_loop (o1 o2 : ScanOutcome) (h1 : o1 ≠ ScanOutcome.avail)
    (h2 : o2 ≠ ScanOutcome.avail) :
    (∃ d1 d2 : Nat, pollRun [o1, o2, ScanOutcome.avail] = some (3, [d1, d2])) ∧
    (∀ (o : ScanOutcome) (rest : List ScanOutcome), o ≠ ScanOutcome.avail →
      (pollRun (o :: rest) = none ↔ pollRun rest = none)) := by
  constructor
  · cases o1 <;> cases o2 <;>
      first
        | exact absurd rfl h1
        | exact absurd rfl h2
        | exact ⟨_, _, rfl⟩
  · intro o rest ho
    have hd : ∃ d, attemptDelay o = some d := by
      cases o
      · exact absurd rfl ho
      · exact ⟨7, rfl⟩
      · exact ⟨12, rfl⟩
    obtain ⟨d, hdo⟩ := hd
    rcases hr : pollRun rest with _ | p
    · simp [pollRun, hdo, hr]
    · obtain ⟨k, ds⟩ := p
      simp [pollRun, hdo, hr]

theorem C5_poll_loop_witness :
    ∃ d1 d2 : Nat,
      pollRun [ScanOutcome.err, ScanOutcome.notAvail, ScanOutcome.avail]
        = some (3, [d1, d2]) :=
  (C5_poll_loop ScanOutcome.err ScanOutcome.notAvail (by decide) (by decide)).1

/-! ### Claim C6 -/

/-- C6: a non-200 response to any single month-query raises a distinct
"request failed" error carrying the status code and response body
(`send_request`), which propagates out of the park's information fetch
(`get_park_information` returns exactly the error of the first failing
month-query), and out of the whole scan: whenever any park's month-queries
include a non-200 response, `go_camp` returns an error, so no summary line
or availability result is committed for that park (nothing at all is
returned). -/
theorem C6_request_failure :
    (∀ (α : Type) (r : Resp α), r.status ≠ 200 →
      send_request r = .error (r.status, r.text)) ∧
    (∀ (stype : String) (rs : List (Resp MonthData)) (r : Resp MonthData),
      rs.find? (fun x => decide (x.status ≠ 200)) = some r →
      get_park_information stype rs = .error (r.status, r.text)) ∧
    (∀ (stype : String) (st : FCState) (parks : List Park) (p : Park),
      p ∈ parks → (∃ r ∈ p.months, r.status ≠ 200) →
      ∃ e, go_camp stype st parks = .error e) := by
  refine ⟨?_, ?_, ?_⟩
  · intro α r h
    simp [send_request, h]
  · intro stype rs r h
    unfold get_park_information
    rw [fetchMonths_find_eq rs r h]
    rfl
  · intro stype st parks p hp hbad
    exact go_camp_error_of_bad_month stype parks st p hp hbad

theorem C6_request_failure_witness :
    ∃ e, go_camp "" (initState 737855 737857)
      [⟨"232447", [⟨404, "Not Found", ⟨[]⟩⟩], ⟨200, "ok", "Pinnacles"⟩⟩]
      = Except.error e :=
  (C6_request_failure).2.2 "" (initState 737855 737857)
    [⟨"232447", [⟨404, "Not Found", ⟨[]⟩⟩], ⟨200, "ok", "Pinnacles"⟩⟩]
    ⟨"232447", [⟨404, "Not Found", ⟨[]⟩⟩], ⟨200, "ok", "Pinnacles"⟩⟩
    (List.mem_singleton.mpr rfl)
    ⟨⟨404, "Not Found", ⟨[]⟩⟩, List.mem_singleton.mpr rfl, by decide⟩

/-! ### Claim C7 -/

/-- C7: in the merged per-site availability map of a park, (a) with a
non-empty site-type filter, a site all of whose occurrences declare a type
different from the filter gets no entry at all — it contributes no dates,
whatever its raw statuses — and (b) every date recorded for any site
appeared with status exactly `"Available"` in some queried month's data for
that site, so any date with a different status is excluded for every
site. -/
theorem C7_site_type_filter :
    (∀ (stype : String) (ms : List MonthData) (sid : String), stype ≠ "" →
      (∀ m ∈ ms, ∀ c : Campsite, (sid, c) ∈ m.campsites →
        c.campsite_type ≠ stype) →
      ∀ ds, (sid, ds) ∉ collapse stype ms) ∧
    (∀ (stype : String) (ms : List MonthData) (sid : String) (ds : List Int)
      (d : Int), (sid, ds) ∈ collapse stype ms → d ∈ ds →
      ∃ m ∈ ms, ∃ c : Campsite, (sid, c) ∈ m.campsites ∧
        (d, "Available") ∈ c.availabilities) := by
  constructor
  · intro stype ms sid hne hmismatch ds hmem
    obtain ⟨hnil, hall⟩ := GoodMap_collapse stype ms sid ds hmem
    obtain ⟨d, hd⟩ := List.exists_mem_of_ne_nil ds hnil
    obtain ⟨m, hm, c, hc, _, htype⟩ := hall d hd
    rcases htype with h | h
    · exact hne h
    · exact hmismatch m hm c hc h.symm
  · intro stype ms sid ds d hmem hd
    obtain ⟨m, hm, c, hc, hav, _⟩ := (GoodMap_collapse stype ms sid ds hmem).2 d hd
    exact ⟨m, hm, c, hc, hav⟩

theorem C7_site_type_filter_witness :
    ("A", [100]) ∉
      collapse "RV" [⟨[("A", ⟨"TENT", [(100, "Available")]⟩)]⟩] :=
  (C7_site_type_filter).1 "RV" [⟨[("A", ⟨"TENT", [(100, "Available")]⟩)]⟩] "A"
    (by decide)
    (by
      intro m hm c hc
      rw [List.mem_singleton] at hm
      subst hm
      rw [List.mem_singleton, Prod.mk.injEq] at hc
      rw [hc.2]
      decide)
    [100]

/-! ### Claim C8 -/

/-- C8 counterexample: the claim says the second component of the reported
pair is the park's total site count.  For a park whose month data lists two
campsites, one with an `"Available"` date and one with only a `"Reserved"`
date, the merged map has a single entry, and `_get_num_available_sites`
reports `maximum = 1`, not 2. -/
theorem C8_counterexample :
    (MonthData.mk [("A", Campsite.mk "T" [(100, "Available")]),
                   ("B", Campsite.mk "T" [(101, "Reserved")])]).campsites.length
      = 2 ∧
    (get_num_available_sites (initState 99 102)
      (collapse ""
        [MonthData.mk [("A", Campsite.mk "T" [(100, "Available")]),
                       ("B", Campsite.mk "T" [(101, "Reserved")])]])).2.2
      = 1 := by
  decide

/-- C8 (amended): the pair reported per park is
`(count of sites with a qualifying consecutive run, number of entries of
the merged availability map)`, where the merged map contains exactly the
sites with at least one filter-matching `"Available"` date in the queried
months — not the park's total campsite count. -/
theorem C8_reported_pair :
    (∀ (st : FCState) (info : List (String × List Int)),
      (get_num_available_sites st info).2.2 = info.length) ∧
    (∀ (stype : String) (ms : List MonthData) (sid : String) (ds : List Int),
      (sid, ds) ∈ collapse stype ms → ds ≠ []) := by
  constructor
  · intro st info
    rfl
  · intro stype ms sid ds hmem
    exact (GoodMap_collapse stype ms sid ds hmem).1

theorem C8_reported_pair_witness :
    (get_num_available_sites (initState 99 102)
      [("A", [100]), ("B", [101])]).2.2 = 2 ∧
    ([100] : List Int) ≠ [] :=
  ⟨(C8_reported_pair).1 (initState 99 102) [("A", [100]), ("B", [101])],
   (C8_reported_pair).2 "" [⟨[("A", ⟨"T", [(100, "Available")]⟩)]⟩] "A" [100]
     (by decide)⟩

/-! ### Claim C9 -/

/-- C9 counterexample: the claim says the window always includes the
check-in date.  For a scan with `start_date = end_date` (constructible:
`FindCampsite(park, '2021-11-06', '2021-11-06')`) the window list
`[end - timedelta(i) for i in range(1, 1)]` is empty, so the check-in date
(ordinal 737855) is not in it. -/
theorem C9_counterexample :
    ¬ ((737855 : Int) ∈ (windowDates 737855 737855).toFinset) := by
  decide

/-- C9 (amended): for every scan with `start_date < end_date`, the set of
dates a site's availabilities are restricted to before invoking the
Resolver (the `dates` set of `_get_num_available_sites`, built from
`windowDates`) is exactly `{start, ..., end-1}`: it has `end - start`
elements, contains the check-in date, and never contains the check-out
date.  (When `start_date = end_date` the set is empty, so it cannot contain
the check-in date.) -/
theorem C9_window_restriction (s e : Int) (h : s < e) :
    (windowDates s e).toFinset = Finset.Ico s e ∧
    (windowDates s e).toFinset.card = (e - s).toNat ∧
    s ∈ (windowDates s e).toFinset ∧
    e ∉ (windowDates s e).toFinset := by
  have hset : (windowDates s e).toFinset = Finset.Ico s e := by
    ext d
    rw [List.mem_toFinset, mem_windowDates, Finset.mem_Ico]
  refine ⟨hset, ?_, ?_, ?_⟩
  · rw [hset]
    exact Int.card_Ico s e
  · rw [hset, Finset.mem_Ico]
    omega
  · rw [hset, Finset.mem_Ico]
    omega

theorem C9_window_restriction_witness :
    (windowDates 737855 737858).toFinset = Finset.Ico 737855 737858 ∧
    (windowDates 737855 737858).toFinset.card = ((737858 : Int) - 737855).toNat ∧
    (737855 : Int) ∈ (windowDates 737855 737858).toFinset ∧
    (737858 : Int) ∉ (windowDates 737855 737858).toFinset :=
  C9_window_restriction 737855 737858 (by decide)

/-! ### Claim C10 -/

/-- C10 counterexample: the claim says that after any call to
`_get_num_available_sites` the stored `nights` value lies in
`[1, end - start]`.  For the constructible object with
`start_date = end_date` (window 0), the call stores `nights = 0`, which
lies in no interval `[1, w]`. -/
theorem C10_counterexample :
    ¬ (1 ≤ ((get_num_available_sites (initState 737855 737855) []).1).nights) := by
  decide

/-- C10 (amended): for every object state with `start_date < end_date`,
after any call to `_get_num_available_sites` the stored `nights` value lies
in `[1, end - start]`; and the clamp permanently overwrites the stored
value, so any later call on the resulting state (the next park of the same
scan, or a later scan on the same object) keeps exactly the clamped
value. -/
theorem C10_nights_invariant (st : FCState) (info : List (String × List Int))
    (h : st.startOrd < st.endOrd) :
    1 ≤ ((get_num_available_sites st info).1).nights ∧
    ((get_num_available_sites st info).1).nights ≤ st.endOrd - st.startOrd ∧
    ∀ info' : List (String × List Int),
      ((get_num_available_sites (get_num_available_sites st info).1 info').1).nights
        = ((get_num_available_sites st info).1).nights := by
  have hw : (1 : Int) ≤ st.endOrd - st.startOrd := by omega
  have h1 := clampNights_mem st.nights (st.endOrd - st.startOrd) hw
  refine ⟨?_, ?_, ?_⟩
  · rw [nights_after_get_num_available_sites]
    exact h1.1
  · rw [nights_after_get_num_available_sites]
    exact h1.2
  · intro info'
    rw [nights_after_get_num_available_sites,
        startOrd_after_get_num_available_sites,
        endOrd_after_get_num_available_sites,
        nights_after_get_num_available_sites]
    exact clampNights_idem _ _

theorem C10_nights_invariant_witness :
    1 ≤ ((get_num_available_sites (initState 737855 737857) []).1).nights ∧
    ((get_num_available_sites (initState 737855 737857) []).1).nights
      ≤ (initState 737855 737857).endOrd - (initState 737855 737857).startOrd ∧
    ((get_num_available_sites
        (get_num_available_sites (initState 737855 737857) []).1 []).1).nights
      = ((get_num_available_sites (initState 737855 737857) []).1).nights :=
  ⟨(C10_nights_invariant (initState 737855 737857) [] (by decide)).1,
   (C10_nights_invariant (initState 737855 737857) [] (by decide)).2.1,
   (C10_nights_invariant (initState 737855 737857) [] (by decide)).2.2 []⟩

end CampFinder
